import Mathlib

/-!
Verification of the drone-logbook telemetry pipeline (Rust sources under
`src/src-tauri/src/`) against its natural-language specification.

The development shallowly embeds the relevant program fragments:

* `extract_telemetry`, `calculate_stats` and the zero-point checks of the
  parsers (`parser.rs`, `litchi_parser.rs`, `dronelogbook_parser.rs`);
* `get_flight_telemetry` / `query_raw_telemetry` /
  `query_downsampled_telemetry` (`database.rs`);
* `deduplicate_flights`, `delete_flight` and the import tail of
  `import_log` (`database.rs`, `server.rs`);
* `export_backup` / `import_backup` (`database.rs`).

Floating-point inputs are modelled as either a finite rational or one of the
non-finite IEEE values (`nan`, `inf`, `negInf`); arithmetic on values that the
program has already checked to be finite is modelled over `ℚ`.  Machine
integers are modelled as unbounded `ℤ` (no claim under study exercises
overflow or saturation).  The square root used for the ground-speed magnitude
is an explicit function parameter, since no claim depends on its value.
-/

/-- The floor of a rational, written so that the kernel can evaluate it on
concrete inputs (`Rat.floor_def`: the floor is `num / den`). -/
def ratFloor (q : ℚ) : ℤ :=
  q.num / (q.den : ℤ)

theorem ratFloor_eq_floor (q : ℚ) : ratFloor q = ⌊q⌋ :=
  Rat.floor_def.symm

/-- The ceiling of a rational, as the negated floor of the negation. -/
def ratCeil (q : ℚ) : ℤ :=
  -ratFloor (-q)

theorem ratCeil_eq_ceil (q : ℚ) : ratCeil q = ⌈q⌉ := by
  rw [ratCeil, ratFloor_eq_floor, Int.floor_neg, neg_neg]

/-- Truncation toward zero, the semantics of Rust `as i64` casts of a finite
float (saturation at the i64 bounds is not modelled). -/
def truncZ (q : ℚ) : ℤ :=
  if 0 ≤ q then ratFloor q else ratCeil q

/-- Rounding half away from zero, the semantics of Rust `f64::round` and of
DuckDB `ROUND` / double-to-integer casts. -/
def roundAway (q : ℚ) : ℤ :=
  if 0 ≤ q then ratFloor (q + 1/2) else ratCeil (q - 1/2)

/-- A raw floating-point input: a finite rational or a non-finite IEEE value. -/
inductive FVal where
  | finite (q : ℚ)
  | nan
  | inf
  | negInf
deriving DecidableEq, Repr

/-- `f64::is_finite` / `f32::is_finite` (`parser.rs`, `is_finite_f64` /
`is_finite_f32`). -/
def FVal.isFinite : FVal → Bool
  | .finite _ => true
  | _ => false

/-- The numeric value of a float that the program has checked to be finite. -/
def FVal.val : FVal → ℚ
  | .finite q => q
  | _ => 0

/-! ## Data model of `extract_telemetry` (`parser.rs`)

Only the frame fields that `extract_telemetry` reads are modelled.  The seven
fields subject to the finiteness check (`latitude`, `longitude`, `altitude`,
`height`, `x_speed`, `y_speed`, `z_speed`) are kept as raw `FVal`s; the
remaining float fields are not finiteness-checked by the program and are
modelled directly as rationals. -/

structure OsdData where
  latitude : FVal
  longitude : FVal
  altitude : FVal
  height : FVal
  xSpeed : FVal
  ySpeed : FVal
  zSpeed : FVal
  vpsHeight : ℚ := 0
  pitch : ℚ := 0
  roll : ℚ := 0
  yaw : ℚ := 0
  gpsNum : ℤ := 0
  gpsLevel : ℤ := 0
  flycState : Option String := none
  flyTime : ℚ := 0
deriving DecidableEq, Repr

structure GimbalData where
  pitch : ℚ := 0
  roll : ℚ := 0
  yaw : ℚ := 0
deriving DecidableEq, Repr

structure BatteryData where
  chargeLevel : ℤ := 0
  voltage : ℚ := 0
  current : ℚ := 0
  temperature : ℚ := 0
deriving DecidableEq, Repr

structure RcData where
  uplinkSignal : Option ℤ := none
  downlinkSignal : Option ℤ := none
  aileron : ℤ := 1024
  elevator : ℤ := 1024
  throttle : ℤ := 1024
  rudder : ℤ := 1024
deriving DecidableEq, Repr

structure CameraData where
  isPhoto : Bool := false
  isVideo : Bool := false
deriving DecidableEq, Repr

/-- One decoded binary-log frame (the slice of `dji_log_parser::frame::Frame`
read by `extract_telemetry`). -/
structure Frame where
  osd : OsdData
  gimbal : GimbalData := {}
  battery : BatteryData := {}
  rc : RcData := {}
  camera : CameraData := {}
deriving DecidableEq, Repr

/-- `models.rs`, `TelemetryPoint`: the canonical point produced by telemetry
extraction.  Every field except the timestamp is optional. -/
structure TelemetryPoint where
  timestamp_ms : ℤ := 0
  latitude : Option ℚ := none
  longitude : Option ℚ := none
  altitude : Option ℚ := none
  height : Option ℚ := none
  vps_height : Option ℚ := none
  altitude_abs : Option ℚ := none
  speed : Option ℚ := none
  velocity_x : Option ℚ := none
  velocity_y : Option ℚ := none
  velocity_z : Option ℚ := none
  pitch : Option ℚ := none
  roll : Option ℚ := none
  yaw : Option ℚ := none
  gimbal_pitch : Option ℚ := none
  gimbal_roll : Option ℚ := none
  gimbal_yaw : Option ℚ := none
  battery_percent : Option ℤ := none
  battery_voltage : Option ℚ := none
  battery_current : Option ℚ := none
  battery_temp : Option ℚ := none
  cell_voltages : Option (List ℚ) := none
  flight_mode : Option String := none
  gps_signal : Option ℤ := none
  satellites : Option ℤ := none
  rc_signal : Option ℤ := none
  rc_uplink : Option ℤ := none
  rc_downlink : Option ℤ := none
  rc_aileron : Option ℚ := none
  rc_elevator : Option ℚ := none
  rc_throttle : Option ℚ := none
  rc_rudder : Option ℚ := none
  is_photo : Option Bool := none
  is_video : Option Bool := none
deriving DecidableEq, Repr

/-- The finiteness check of `extract_telemetry` (`parser.rs:689-694`): a frame
is corrupt when any of latitude, longitude, altitude, height or a velocity
component is non-finite; such a frame is skipped whole. -/
def frameCorrupt (f : Frame) : Bool :=
  !(f.osd.latitude.isFinite && f.osd.longitude.isFinite
    && f.osd.altitude.isFinite && f.osd.height.isFinite
    && f.osd.xSpeed.isFinite && f.osd.ySpeed.isFinite && f.osd.zSpeed.isFinite)

/-- `parser.rs:663`: whether any frame reports a positive in-record fly time. -/
def hasFlyTime (frames : List Frame) : Bool :=
  frames.any (fun f => 0 < f.osd.flyTime)

/-- `parser.rs:668-672`: the fallback inter-frame interval, computed from the
header-declared total duration when no frame carries a fly time. -/
def fallbackIntervalMs (frames : List Frame) (detailsTotalTimeSecs : ℚ) : ℤ :=
  if !hasFlyTime frames && 0 < detailsTotalTimeSecs && !frames.isEmpty then
    roundAway ((detailsTotalTimeSecs * 1000) / (frames.length : ℚ))
  else
    100

/-- `parser.rs:680-684`: the timestamp of the current frame — the in-record
fly time when positive, otherwise the running fallback accumulator. -/
def currentTimestampMs (acc : ℤ) (f : Frame) : ℤ :=
  if 0 < f.osd.flyTime then truncZ (f.osd.flyTime * 1000) else acc

/-- `parser.rs:718`: GPS lock detection — (0,0) within a 1e-6 degree epsilon
means no lock. -/
def hasGpsLock (f : Frame) : Bool :=
  !(|f.osd.latitude.val| < 1/1000000 && |f.osd.longitude.val| < 1/1000000)

/-- `parser.rs:719`: physical-range check on the GPS coordinates. -/
def gpsInRange (f : Frame) : Bool :=
  |f.osd.latitude.val| ≤ 90 && |f.osd.longitude.val| ≤ 180

/-- The telemetry point built from one non-corrupt frame
(`parser.rs:710-775`), with the ground-speed square root supplied as `sqrtFn`. -/
def pointOfFrame (sqrtFn : ℚ → ℚ) (f : Frame) (ts : ℤ) : TelemetryPoint :=
  let lock := hasGpsLock f
  let inRange := gpsInRange f
  let alt := f.osd.altitude.val
  let height := f.osd.height.val
  let spd := sqrtFn (f.osd.xSpeed.val ^ 2 + f.osd.ySpeed.val ^ 2)
  { timestamp_ms := ts
    latitude := if lock && inRange then some f.osd.latitude.val else none
    longitude := if lock && inRange then some f.osd.longitude.val else none
    altitude := if |alt| < 10000 then some alt else none
    height := if |height| < 10000 then some height else none
    vps_height := some f.osd.vpsHeight
    speed := if lock && inRange then (if spd < 100 then some spd else none) else none
    velocity_x := if lock && inRange then some f.osd.xSpeed.val else none
    velocity_y := if lock && inRange then some f.osd.ySpeed.val else none
    velocity_z := if lock && inRange then some f.osd.zSpeed.val else none
    pitch := some f.osd.pitch
    roll := some f.osd.roll
    yaw := some f.osd.yaw
    satellites := some f.osd.gpsNum
    gps_signal := some f.osd.gpsLevel
    flight_mode := f.osd.flycState
    gimbal_pitch := some f.gimbal.pitch
    gimbal_roll := some f.gimbal.roll
    gimbal_yaw := some f.gimbal.yaw
    battery_percent := some f.battery.chargeLevel
    battery_voltage := some f.battery.voltage
    battery_current := some f.battery.current
    battery_temp := some f.battery.temperature
    rc_uplink := f.rc.uplinkSignal
    rc_downlink := f.rc.downlinkSignal
    rc_signal := f.rc.downlinkSignal.or f.rc.uplinkSignal
    rc_aileron := some (((f.rc.aileron : ℚ) - 1024) / 1024 * 100)
    rc_elevator := some (((f.rc.elevator : ℚ) - 1024) / 1024 * 100)
    rc_throttle := some (((f.rc.throttle : ℚ) - 1024) / 1024 * 100)
    rc_rudder := some (((f.rc.rudder : ℚ) - 1024) / 1024 * 100)
    is_photo := some f.camera.isPhoto
    is_video := some f.camera.isVideo }

/-- The mutable state of the extraction loop: the emitted points, the fallback
timestamp accumulator, and the diagnostic counters of `parser.rs:656-660`. -/
structure ExtractState where
  points : List TelemetryPoint := []
  tsAcc : ℤ := 0
  skippedCorrupt : ℕ := 0
  skippedNoGps : ℕ := 0
  skippedOutOfRange : ℕ := 0
  skippedAltClamp : ℕ := 0
  skippedSpeedClamp : ℕ := 0
deriving DecidableEq, Repr

/-- One iteration of the loop of `extract_telemetry` (`parser.rs:674-781`). -/
def processFrame (sqrtFn : ℚ → ℚ) (intervalMs : ℤ) (st : ExtractState) (f : Frame) :
    ExtractState :=
  let cur := currentTimestampMs st.tsAcc f
  if frameCorrupt f then
    { st with
      skippedCorrupt := st.skippedCorrupt + 1
      tsAcc := cur + intervalMs }
  else
    let lock := hasGpsLock f
    let inRange := gpsInRange f
    let spd := sqrtFn (f.osd.xSpeed.val ^ 2 + f.osd.ySpeed.val ^ 2)
    { st with
      points := st.points ++ [pointOfFrame sqrtFn f cur]
      tsAcc := cur + intervalMs
      skippedNoGps := st.skippedNoGps + (if !lock then 1 else 0)
      skippedOutOfRange := st.skippedOutOfRange + (if lock && !inRange then 1 else 0)
      skippedAltClamp := st.skippedAltClamp
        + (if |f.osd.altitude.val| < 10000 then 0 else 1)
        + (if |f.osd.height.val| < 10000 then 0 else 1)
      skippedSpeedClamp := st.skippedSpeedClamp
        + (if lock && inRange && !(spd < 100) then 1 else 0) }

/-- `extract_telemetry` (`parser.rs:651-797`): fold the per-frame step over the
frame list, starting from the empty state. -/
def extractTelemetry (sqrtFn : ℚ → ℚ) (frames : List Frame)
    (detailsTotalTimeSecs : ℚ) : List TelemetryPoint :=
  (frames.foldl (processFrame sqrtFn (fallbackIntervalMs frames detailsTotalTimeSecs)) {}).points

/-! ## Flight statistics (`parser.rs`, `calculate_stats`) -/

/-- The average-speed statistic of `LogParser::calculate_stats`
(`parser.rs:813-820`): the arithmetic mean of all present speed samples. -/
def avgSpeedMs (points : List TelemetryPoint) : ℚ :=
  let speeds := points.filterMap (·.speed)
  if speeds.isEmpty then 0 else speeds.sum / (speeds.length : ℚ)

/-- Modelled from the spec: the average-speed statistic the specification
describes for the statistics engine — the mean over present speed samples that
are not near zero (threshold `eps`), so that ground-idle samples are excluded.
Used only to compare the specified behaviour with `avgSpeedMs`. -/
def specAvgSpeedNonIdle (eps : ℚ) (points : List TelemetryPoint) : ℚ :=
  let speeds := (points.filterMap (·.speed)).filter (fun s => eps < s)
  if speeds.isEmpty then 0 else speeds.sum / (speeds.length : ℚ)

/-- A second, traversal-independent description of the mean over all present
speed samples, used to state the amended claim for the statistics engine. -/
def specAvgSpeedAllPresent (points : List TelemetryPoint) : ℚ :=
  let present := points.filter (fun p => p.speed.isSome)
  if present.isEmpty then 0
  else (present.map (fun p => p.speed.getD 0)).sum / (present.length : ℚ)

/-! ## Zero-point failure contract of the parsers -/

/-- The parser error taxonomy (`parser.rs`, `ParserError`); only the variants
relevant to the verified claims are modelled. -/
inductive ParserError where
  | noTelemetryData
  | incompatibleFile
deriving DecidableEq, Repr

/-- The point-production stage of the binary-log path of `parse_log`
(`parser.rs:200-218`): an empty frame list or an empty surviving point list
fails with `NoTelemetryData`; otherwise the surviving points are returned. -/
def djiParsePoints (sqrtFn : ℚ → ℚ) (frames : List Frame)
    (detailsTotalTimeSecs : ℚ) : Except ParserError (List TelemetryPoint) :=
  if frames.isEmpty then .error .noTelemetryData
  else
    let points := extractTelemetry sqrtFn frames detailsTotalTimeSecs
    if points.isEmpty then .error .noTelemetryData else .ok points

/-- `litchi_parser.rs:213-222`: when the smallest timestamp is positive the
timestamps are epoch-based and are normalized to be relative to it. -/
def litchiNormalize (points : List TelemetryPoint) : List TelemetryPoint :=
  if points.isEmpty then points
  else
    let minTimestamp := ((points.map (·.timestamp_ms)).min?).getD 0
    if 0 < minTimestamp then
      points.map (fun p => { p with timestamp_ms := p.timestamp_ms - minTimestamp })
    else points

/-- The point-production stage of `LitchiParser::parse`
(`litchi_parser.rs:204-226`): rows parse to candidate points, only points with
both coordinates present are kept, timestamps are normalized, and an empty
survivor list fails with `NoTelemetryData`. -/
def litchiParsePoints (candidates : List TelemetryPoint) :
    Except ParserError (List TelemetryPoint) :=
  let kept := candidates.filter (fun p => p.latitude.isSome && p.longitude.isSome)
  let points := litchiNormalize kept
  if points.isEmpty then .error .noTelemetryData else .ok points

/-- The point-production stage of `DroneLogbookParser::parse`
(`dronelogbook_parser.rs:462-506`): a candidate row yields a point only when
both coordinates are present, and an empty survivor list fails with
`NoTelemetryData`. -/
def dlbParsePoints (candidates : List TelemetryPoint) :
    Except ParserError (List TelemetryPoint) :=
  let points := candidates.filter (fun p => p.latitude.isSome && p.longitude.isSome)
  if points.isEmpty then .error .noTelemetryData else .ok points

/-! ## Downsampling query layer (`database.rs`)

A stored telemetry row for one flight is modelled by `TelemetryRecord`
(`models.rs`), the projection that `query_raw_telemetry` selects.  The
`telemetry` table's primary key `(flight_id, timestamp_ms)` makes timestamps
unique within a flight; theorems that need this carry it as a hypothesis. -/

structure TelemetryRecord where
  timestamp_ms : ℤ := 0
  latitude : Option ℚ := none
  longitude : Option ℚ := none
  altitude : Option ℚ := none
  height : Option ℚ := none
  vps_height : Option ℚ := none
  speed : Option ℚ := none
  velocity_x : Option ℚ := none
  velocity_y : Option ℚ := none
  velocity_z : Option ℚ := none
  battery_percent : Option ℤ := none
  battery_voltage : Option ℚ := none
  battery_temp : Option ℚ := none
  cell_voltages : Option (List ℚ) := none
  pitch : Option ℚ := none
  roll : Option ℚ := none
  yaw : Option ℚ := none
  satellites : Option ℤ := none
  flight_mode : Option String := none
  rc_signal : Option ℤ := none
  rc_uplink : Option ℤ := none
  rc_downlink : Option ℤ := none
  rc_aileron : Option ℚ := none
  rc_elevator : Option ℚ := none
  rc_throttle : Option ℚ := none
  rc_rudder : Option ℚ := none
  is_photo : Option Bool := none
  is_video : Option Bool := none
deriving DecidableEq, Repr

/-- The timestamp order on records, used for `ORDER BY timestamp_ms ASC`. -/
def tsLE (a b : TelemetryRecord) : Prop :=
  a.timestamp_ms ≤ b.timestamp_ms

instance : DecidableRel tsLE := fun a b => Int.decLe _ _

instance : IsTotal TelemetryRecord tsLE :=
  ⟨fun a b => Int.le_total a.timestamp_ms b.timestamp_ms⟩

instance : IsTrans TelemetryRecord tsLE :=
  ⟨fun _ _ _ h1 h2 => le_trans h1 h2⟩

/-- Sort records by ascending timestamp (`ORDER BY timestamp_ms ASC`). -/
def sortByTs (rows : List TelemetryRecord) : List TelemetryRecord :=
  List.insertionSort tsLE rows

/-- `query_raw_telemetry` (`database.rs:1116-1200`): the stored rows of the
flight, in ascending timestamp order. -/
def queryRawTelemetry (rows : List TelemetryRecord) : List TelemetryRecord :=
  sortByTs rows

/-- SQL `AVG` over a nullable numeric column: nulls are ignored; an all-null
group aggregates to null. -/
def optRatAvg (xs : List (Option ℚ)) : Option ℚ :=
  let v := xs.filterMap id
  if v.isEmpty then none else some (v.sum / (v.length : ℚ))

/-- `AVG(...)::INTEGER` (and `ROUND(AVG(...))::INTEGER`) over a nullable
integer column: the exact average rounded to the nearest integer, half away
from zero; null when the group is all null. -/
def optIntAvgCast (xs : List (Option ℤ)) : Option ℤ :=
  let v := xs.filterMap id
  if v.isEmpty then none else some (roundAway ((v.sum : ℚ) / (v.length : ℚ)))

/-- SQL `BOOL_OR` over a nullable boolean column: true when some non-null
value is true, null when all values are null, false otherwise. -/
def optBoolOr (xs : List (Option Bool)) : Option Bool :=
  if xs.any (fun x => x = some true) then some true
  else if xs.all (fun x => x = none) then none
  else some false

/-- The `bucket_ts` grouping expression `(timestamp_ms / ?) * ?`
(`database.rs:1225`).  DuckDB's `/` on integer operands is floating-point
division — `configure_connection` (`database.rs:159-167`) never enables the
`integer_division` setting — so `bucket_ts` is a `DOUBLE`; its arithmetic is
modelled exactly over ℚ, where dividing by the bucket width and multiplying
back reproduces the timestamp. -/
def bucketTs (bucket : ℤ) (r : TelemetryRecord) : ℚ :=
  (r.timestamp_ms : ℚ) / (bucket : ℚ) * (bucket : ℚ)

/-- `SELECT MIN(timestamp_ms) ...` over the flight's rows. -/
def minTsOf (rows : List TelemetryRecord) : ℤ :=
  ((rows.map (·.timestamp_ms)).min?).getD 0

/-- `SELECT MAX(timestamp_ms) ...` over the flight's rows. -/
def maxTsOf (rows : List TelemetryRecord) : ℤ :=
  ((rows.map (·.timestamp_ms)).max?).getD 0

/-- The flight duration in milliseconds (`database.rs:1218`). -/
def durationMsOf (rows : List TelemetryRecord) : ℤ :=
  maxTsOf rows - minTsOf rows

/-- `database.rs:1212-1219`: the bucket width — flight duration over the
target point count, floored at 1000 ms. -/
def bucketSizeMs (rows : List TelemetryRecord) (targetPoints : ℕ) : ℤ :=
  max ((durationMsOf rows).tdiv (targetPoints : ℤ)) 1000

/-- The distinct `bucket_ts` values of the row set, in ascending order
(`GROUP BY bucket_ts ... ORDER BY bucket_ts ASC`). -/
def bucketTsSorted (bucket : ℤ) (rows : List TelemetryRecord) : List ℚ :=
  List.insertionSort (· ≤ ·) ((rows.map (bucketTs bucket)).dedup)

/-- The aggregated output record of one group (`database.rs:1223-1256`):
floats averaged, integer columns average-cast, `cell_voltages` and
`flight_mode` first by timestamp, camera booleans `BOOL_OR`-ed.  The group's
`DOUBLE` key is read back into the `i64` timestamp field
(`database.rs:1271`); on every key the query produces the value is integral,
so the rounding convention of the conversion is immaterial. -/
def aggBucket (k : ℚ) (rows : List TelemetryRecord) : TelemetryRecord :=
  let sorted := sortByTs rows
  { timestamp_ms := ratFloor k
    latitude := optRatAvg (rows.map (·.latitude))
    longitude := optRatAvg (rows.map (·.longitude))
    altitude := optRatAvg (rows.map (·.altitude))
    height := optRatAvg (rows.map (·.height))
    vps_height := optRatAvg (rows.map (·.vps_height))
    speed := optRatAvg (rows.map (·.speed))
    velocity_x := optRatAvg (rows.map (·.velocity_x))
    velocity_y := optRatAvg (rows.map (·.velocity_y))
    velocity_z := optRatAvg (rows.map (·.velocity_z))
    battery_percent := optIntAvgCast (rows.map (·.battery_percent))
    battery_voltage := optRatAvg (rows.map (·.battery_voltage))
    battery_temp := optRatAvg (rows.map (·.battery_temp))
    cell_voltages := sorted.head?.bind (·.cell_voltages)
    pitch := optRatAvg (rows.map (·.pitch))
    roll := optRatAvg (rows.map (·.roll))
    yaw := optRatAvg (rows.map (·.yaw))
    satellites := optIntAvgCast (rows.map (·.satellites))
    flight_mode := sorted.head?.bind (·.flight_mode)
    rc_signal := optIntAvgCast (rows.map (·.rc_signal))
    rc_uplink := optIntAvgCast (rows.map (·.rc_uplink))
    rc_downlink := optIntAvgCast (rows.map (·.rc_downlink))
    rc_aileron := optRatAvg (rows.map (·.rc_aileron))
    rc_elevator := optRatAvg (rows.map (·.rc_elevator))
    rc_throttle := optRatAvg (rows.map (·.rc_throttle))
    rc_rudder := optRatAvg (rows.map (·.rc_rudder))
    is_photo := optBoolOr (rows.map (·.is_photo))
    is_video := optBoolOr (rows.map (·.is_video)) }

/-- `query_downsampled_telemetry` (`database.rs:1205-1304`): one aggregated
record per distinct `bucket_ts` value, in ascending key order. -/
def queryDownsampledTelemetry (rows : List TelemetryRecord) (targetPoints : ℕ) :
    List TelemetryRecord :=
  let bucket := bucketSizeMs rows targetPoints
  (bucketTsSorted bucket rows).map
    (fun k => aggBucket k (rows.filter (fun r => bucketTs bucket r = k)))

/-- `get_flight_telemetry` (`database.rs:1067-1113`): raw rows when the stored
point count does not exceed `maxPoints`, otherwise the downsampled view. -/
def getFlightTelemetry (rows : List TelemetryRecord) (maxPoints : ℕ) :
    List TelemetryRecord :=
  if rows.length ≤ maxPoints then queryRawTelemetry rows
  else queryDownsampledTelemetry rows maxPoints

/-! ## Database state, deduplication, import rollback, backup/restore
(`database.rs`, `server.rs`) -/

/-- One row of the `flights` table (`database.rs:182-213`). -/
structure FlightRow where
  id : ℤ
  fileName : String := ""
  displayName : String := ""
  fileHash : Option String := none
  droneModel : Option String := none
  droneSerial : Option String := none
  aircraftName : Option String := none
  batterySerial : Option String := none
  startTime : Option ℤ := none
  endTime : Option ℤ := none
  durationSecs : Option ℚ := none
  totalDistance : Option ℚ := none
  maxAltitude : Option ℚ := none
  maxSpeed : Option ℚ := none
  homeLat : Option ℚ := none
  homeLon : Option ℚ := none
  pointCount : ℤ := 0
  photoCount : Option ℤ := none
  videoCount : Option ℤ := none
  notes : Option String := none
deriving DecidableEq, Repr

/-- One row of the `telemetry` table, as the flight id plus the column
projection served back out by the query layer. -/
structure TelemetryRow where
  flightId : ℤ
  row : TelemetryRecord := {}
deriving DecidableEq, Repr

/-- One row of the `flight_tags` table. -/
structure TagRow where
  flightId : ℤ
  tag : String
  tagType : String := "auto"
deriving DecidableEq, Repr

/-- One row of the `flight_messages` table. -/
structure MessageRow where
  flightId : ℤ
  timestampMs : ℤ := 0
  messageType : String := "tip"
  message : String := ""
deriving DecidableEq, Repr

/-- One row of the `keychains` table (primary key `serial_number`). -/
structure KeychainRow where
  serialNumber : String
  payload : String := ""
deriving DecidableEq, Repr

/-- One row of the `equipment_names` table (primary key
`(serial, equipment_type)`). -/
structure EquipmentRow where
  serial : String
  equipmentType : String
  name : String := ""
deriving DecidableEq, Repr

/-- The embedded database state: one list per table. -/
structure Db where
  flights : List FlightRow := []
  telemetry : List TelemetryRow := []
  tags : List TagRow := []
  messages : List MessageRow := []
  keychains : List KeychainRow := []
  equipmentNames : List EquipmentRow := []
deriving DecidableEq, Repr

/-- A non-null, non-empty text column value (the validity filters
`IS NOT NULL AND != ''` of `deduplicate_flights`). -/
def strValid : Option String → Bool
  | some s => !(s == "")
  | none => false

/-- A flight participates in hash deduplication when its `file_hash` is
non-null and non-empty (`database.rs:1927`). -/
def hashValid (f : FlightRow) : Bool :=
  strValid f.fileHash

/-- A flight participates in signature deduplication when drone serial,
battery serial and start time are all present and non-empty
(`database.rs:1961-1964`). -/
def sigValid (f : FlightRow) : Bool :=
  strValid f.droneSerial && strValid f.batterySerial && f.startTime.isSome

/-- Two flights share the dedup signature: same drone serial, battery serial
and exact start time (`database.rs:1957-1960`). -/
def sameSig (f g : FlightRow) : Bool :=
  f.droneSerial == g.droneSerial && f.batterySerial == g.batterySerial
    && f.startTime == g.startTime

/-- `g` outranks `f` in the keep order of the hash pass: higher point count,
ties broken by lower id (`ROW_NUMBER ... ORDER BY point_count DESC, id ASC`,
`database.rs:1933`). -/
def outranks (g f : FlightRow) : Bool :=
  f.pointCount < g.pointCount || (g.pointCount == f.pointCount && g.id < f.id)

/-- The hash pass of `deduplicate_flights` (`database.rs:1922-1942`) deletes a
flight exactly when some other flight shares its valid hash and outranks it
(row number greater than one in its partition). -/
def hashDoomed (fs : List FlightRow) (f : FlightRow) : Bool :=
  hashValid f && fs.any (fun g =>
    !(g.id == f.id) && hashValid g && g.fileHash == f.fileHash && outranks g f)

/-- The signature pass of `deduplicate_flights` (`database.rs:1948-1976`)
deletes a flight that appears on the losing side of some signature pair: as
`id2` when `points1 >= points2`, as `id1` when `points1 < points2`. -/
def sigDoomed (fs : List FlightRow) (f : FlightRow) : Bool :=
  sigValid f && fs.any (fun g =>
    sigValid g && sameSig g f &&
      ((g.id < f.id && f.pointCount ≤ g.pointCount)
        || (f.id < g.id && f.pointCount < g.pointCount)))

/-- The hash-duplicate deletion pass. -/
def dedupHashPass (fs : List FlightRow) : List FlightRow :=
  fs.filter (fun f => !hashDoomed fs f)

/-- The signature-duplicate deletion pass. -/
def dedupSigPass (fs : List FlightRow) : List FlightRow :=
  fs.filter (fun f => !sigDoomed fs f)

/-- `deduplicate_flights` (`database.rs:1914-2001`): the hash pass, then the
signature pass on its result, then orphan cleanup of telemetry and tag rows;
returns the new state and the number of flights removed. -/
def deduplicateFlights (db : Db) : Db × ℕ :=
  let fs1 := dedupHashPass db.flights
  let fs2 := dedupSigPass fs1
  let surviving := fun fid => fs2.any (fun f => f.id == fid)
  ({ db with
      flights := fs2
      telemetry := db.telemetry.filter (fun t => surviving t.flightId)
      tags := db.tags.filter (fun t => surviving t.flightId) },
    db.flights.length - fs2.length)

/-- `delete_flight` (`database.rs:1307-1329`): remove the flight's telemetry,
tags, messages, and its `flights` row. -/
def deleteFlight (db : Db) (fid : ℤ) : Db :=
  { db with
    flights := db.flights.filter (fun f => !(f.id == fid))
    telemetry := db.telemetry.filter (fun t => !(t.flightId == fid))
    tags := db.tags.filter (fun t => !(t.flightId == fid))
    messages := db.messages.filter (fun m => !(m.flightId == fid)) }

/-- The telemetry rows produced by `bulk_insert_telemetry`
(`database.rs:829-913`) from a point sequence: one row per point, points whose
timestamp repeats one already seen in the batch silently skipped. -/
def bulkRowsAux (fid : ℤ) (seen : List ℤ) : List TelemetryRecord → List TelemetryRow
  | [] => []
  | r :: rest =>
    if r.timestamp_ms ∈ seen then bulkRowsAux fid seen rest
    else ⟨fid, r⟩ :: bulkRowsAux fid (r.timestamp_ms :: seen) rest

/-- The result of one import attempt past parsing. -/
inductive ImportOutcome where
  | ok
  | storageFault
deriving DecidableEq, Repr

/-- The persistence tail of `import_log` (`server.rs:230-252`): insert the
flight metadata row, then bulk-insert the telemetry.  `fault` injects the
storage fault of the bulk insert after `k` points have been appended; in that
case the just-inserted flight is deleted via `delete_flight` before the error
is returned. -/
def importPersist (db : Db) (md : FlightRow) (points : List TelemetryRecord)
    (fault : Option ℕ) : Db × ImportOutcome :=
  let db1 := { db with flights := db.flights ++ [md] }
  match fault with
  | none =>
    ({ db1 with telemetry := db1.telemetry ++ bulkRowsAux md.id [] points }, .ok)
  | some k =>
    let db2 :=
      { db1 with telemetry := db1.telemetry ++ (bulkRowsAux md.id [] points).take k }
    (deleteFlight db2 md.id, .storageFault)

/-- An exported backup archive (`export_backup`, `database.rs:2081-2156`):
one columnar file per table. -/
structure BackupArchive where
  flights : List FlightRow
  telemetry : List TelemetryRow
  keychains : List KeychainRow
  tags : List TagRow
  messages : List MessageRow
  equipmentNames : List EquipmentRow
deriving DecidableEq, Repr

/-- `export_backup`: serialize every table of the current state. -/
def exportBackup (db : Db) : BackupArchive :=
  { flights := db.flights
    telemetry := db.telemetry
    keychains := db.keychains
    tags := db.tags
    messages := db.messages
    equipmentNames := db.equipmentNames }

/-- `import_backup` (`database.rs:2162-2299`): per table, delete the existing
rows whose keys collide with the incoming set (flights by id or by non-null
file hash; telemetry, tags and messages by incoming flight id; keychains and
equipment names by primary key via `INSERT OR REPLACE`), then bulk-load the
archive rows. -/
def importBackup (a : BackupArchive) (db : Db) : Db :=
  let inIds := a.flights.map (·.id)
  let inHashes := a.flights.filterMap (·.fileHash)
  let telIds := a.telemetry.map (·.flightId)
  let tagIds := a.tags.map (·.flightId)
  let msgIds := a.messages.map (·.flightId)
  let kcKeys := a.keychains.map (·.serialNumber)
  let eqKeys := a.equipmentNames.map (fun e => (e.serial, e.equipmentType))
  { flights :=
      db.flights.filter (fun f =>
        !(f.id ∈ inIds || (match f.fileHash with
          | some h => h ∈ inHashes
          | none => false))) ++ a.flights
    telemetry := db.telemetry.filter (fun t => !(t.flightId ∈ telIds)) ++ a.telemetry
    tags := db.tags.filter (fun t => !(t.flightId ∈ tagIds)) ++ a.tags
    messages := db.messages.filter (fun m => !(m.flightId ∈ msgIds)) ++ a.messages
    keychains :=
      db.keychains.filter (fun k => !(k.serialNumber ∈ kcKeys)) ++ a.keychains
    equipmentNames :=
      db.equipmentNames.filter (fun e => !((e.serial, e.equipmentType) ∈ eqKeys))
        ++ a.equipmentNames }

/-! ## Theorems -/

/-- Every telemetry row that `bulk_insert_telemetry` appends carries the
flight id it was invoked with. -/
theorem bulkRowsAux_flightId (fid : ℤ) (seen : List ℤ) (points : List TelemetryRecord) :
    ∀ t ∈ bulkRowsAux fid seen points, t.flightId = fid := by
  induction points generalizing seen with
  | nil => intro t ht; simp [bulkRowsAux] at ht
  | cons r rest ih =>
    intro t ht
    rw [bulkRowsAux] at ht
    by_cases hmem : r.timestamp_ms ∈ seen
    · simp only [if_pos hmem] at ht
      exact ih seen t ht
    · simp only [if_neg hmem, List.mem_cons] at ht
      rcases ht with h | h
      · rw [h]
      · exact ih _ t h

/-- C10.  Backup export followed by restore is a full-fidelity round trip:
restoring the archive exported from a database state over that same state
reconstructs the state exactly, for every table present at export time
(flights, telemetry, keychains, flight tags, flight messages, equipment
names). -/
theorem restore_export_roundtrip (db : Db) :
    importBackup (exportBackup db) db = db := by
  obtain ⟨fl, tel, tg, ms, kc, eqn⟩ := db
  simp only [importBackup, exportBackup, Db.mk.injEq]
  refine ⟨?_, ?_, ?_, ?_, ?_, ?_⟩
  · rw [List.filter_eq_nil_iff.mpr ?_, List.nil_append]
    intro f hf
    simp only [Bool.not_eq_true', Bool.not_eq_false, Bool.or_eq_true, decide_eq_true_eq]
    exact Or.inl (List.mem_map_of_mem _ hf)
  · rw [List.filter_eq_nil_iff.mpr ?_, List.nil_append]
    intro t ht
    simp only [Bool.not_eq_true', Bool.not_eq_false, decide_eq_true_eq]
    exact List.mem_map_of_mem _ ht
  · rw [List.filter_eq_nil_iff.mpr ?_, List.nil_append]
    intro t ht
    simp only [Bool.not_eq_true', Bool.not_eq_false, decide_eq_true_eq]
    exact List.mem_map_of_mem _ ht
  · rw [List.filter_eq_nil_iff.mpr ?_, List.nil_append]
    intro m hm
    simp only [Bool.not_eq_true', Bool.not_eq_false, decide_eq_true_eq]
    exact List.mem_map_of_mem _ hm
  · rw [List.filter_eq_nil_iff.mpr ?_, List.nil_append]
    intro k hk
    simp only [Bool.not_eq_true', Bool.not_eq_false, decide_eq_true_eq]
    exact List.mem_map_of_mem _ hk
  · rw [List.filter_eq_nil_iff.mpr ?_, List.nil_append]
    intro e he
    simp only [Bool.not_eq_true', Bool.not_eq_false, decide_eq_true_eq]
    exact List.mem_map_of_mem (fun e => (e.serial, e.equipmentType)) he

/-- C9.  If the flight metadata row was inserted and the bulk telemetry insert
then fails with a storage fault, the import deletes the just-inserted metadata
row and its dependent rows before returning the error: provided the generated
flight id is fresh, the database is left exactly as it was before the import,
so no ghost flight with zero telemetry remains. -/
theorem import_storage_fault_rolls_back (db : Db) (md : FlightRow)
    (points : List TelemetryRecord) (k : ℕ)
    (hfl : ∀ f ∈ db.flights, f.id ≠ md.id)
    (htel : ∀ t ∈ db.telemetry, t.flightId ≠ md.id)
    (htag : ∀ t ∈ db.tags, t.flightId ≠ md.id)
    (hmsg : ∀ m ∈ db.messages, m.flightId ≠ md.id) :
    importPersist db md points (some k) = (db, ImportOutcome.storageFault) := by
  obtain ⟨fl, tel, tg, ms, kc, eqn⟩ := db
  have h1 : (fl ++ [md]).filter (fun f => !(f.id == md.id)) = fl := by
    rw [List.filter_append]
    rw [List.filter_eq_self.mpr ?keep, List.filter_eq_nil_iff.mpr ?drop, List.append_nil]
    case keep =>
      intro f hf
      simpa using hfl f hf
    case drop =>
      intro f hf
      simp only [List.mem_singleton] at hf
      simp [hf]
  have h2 : (tel ++ (bulkRowsAux md.id [] points).take k).filter
      (fun t => !(t.flightId == md.id)) = tel := by
    rw [List.filter_append]
    rw [List.filter_eq_self.mpr ?keep2, List.filter_eq_nil_iff.mpr ?drop2, List.append_nil]
    case keep2 =>
      intro t ht
      simpa using htel t ht
    case drop2 =>
      intro t ht
      have := bulkRowsAux_flightId md.id [] points t (List.mem_of_mem_take ht)
      simp [this]
  have h3 : tg.filter (fun t => !(t.flightId == md.id)) = tg := by
    refine List.filter_eq_self.mpr ?_
    intro t ht
    simpa using htag t ht
  have h4 : ms.filter (fun m => !(m.flightId == md.id)) = ms := by
    refine List.filter_eq_self.mpr ?_
    intro m hm
    simpa using hmsg m hm
  simp only [importPersist, deleteFlight]
  rw [h1, h2, h3, h4]

/-- Witness for C9: a concrete one-flight database, a fresh metadata row and a
two-point batch whose insert faults after one appended row. -/
theorem import_storage_fault_rolls_back_witness :
    ((∀ f ∈ ({ flights := [{ id := 7 }] } : Db).flights, f.id ≠ (9 : ℤ)) ∧
      importPersist { flights := [{ id := 7 }] } { id := 9 }
        [{ timestamp_ms := 0 }, { timestamp_ms := 100 }] (some 1)
        = ({ flights := [{ id := 7 }] }, ImportOutcome.storageFault)) :=
  ⟨by decide,
    import_storage_fault_rolls_back { flights := [{ id := 7 }] } { id := 9 }
      [{ timestamp_ms := 0 }, { timestamp_ms := 100 }] 1
      (by decide) (by decide) (by decide) (by decide)⟩

/-- Counterexample for C7: a ground-idle sample with present speed 0 next to a
sample with speed 10.  The statistics engine of `parser.rs` averages both
(result 5), while the claimed mean over present, non-near-zero samples is 10
(with the near-zero threshold 0.1 that the codebase itself uses in the Litchi
statistics path). -/
theorem avg_speed_near_zero_cex :
    avgSpeedMs [{ speed := some 0 }, { speed := some 10 }] = 5 ∧
    specAvgSpeedNonIdle (1/10) [{ speed := some 0 }, { speed := some 10 }] = 10 ∧
    (5 : ℚ) ≠ 10 := by
  refine ⟨?_, ?_, by norm_num⟩
  · norm_num [avgSpeedMs, List.filterMap]
  · norm_num [specAvgSpeedNonIdle, List.filterMap, List.filter]

/-- C7 (amended).  The average-speed statistic of `calculate_stats` is the
arithmetic mean over all points whose speed is present — absent speeds are
excluded, but near-zero present samples are included. -/
theorem avg_speed_mean_over_present (points : List TelemetryPoint) :
    avgSpeedMs points = specAvgSpeedAllPresent points := by
  have key : points.filterMap (·.speed)
      = (points.filter (fun p => p.speed.isSome)).map (fun p => p.speed.getD 0) := by
    induction points with
    | nil => rfl
    | cons p ps ih =>
      cases hs : p.speed <;>
        simp [List.filterMap_cons, List.filter_cons, hs, ih]
  simp only [avgSpeedMs, specAvgSpeedAllPresent, key, List.length_map]
  cases hp : (points.filter (fun p => p.speed.isSome)) <;> simp

/-- C8.  In each of the three parsers, if the structural parse succeeds but
zero telemetry points survive validation/filtering, the parse fails with
`NoTelemetryData`; conversely a successful parse always carries at least one
point. -/
theorem parse_zero_points_contract (sqrtFn : ℚ → ℚ) (frames : List Frame) (total : ℚ)
    (litchiCands dlbCands : List TelemetryPoint) :
    (∀ pts, djiParsePoints sqrtFn frames total = .ok pts → pts ≠ []) ∧
    (extractTelemetry sqrtFn frames total = [] →
      djiParsePoints sqrtFn frames total = .error .noTelemetryData) ∧
    (∀ pts, litchiParsePoints litchiCands = .ok pts → pts ≠ []) ∧
    (litchiCands.filter (fun p => p.latitude.isSome && p.longitude.isSome) = [] →
      litchiParsePoints litchiCands = .error .noTelemetryData) ∧
    (∀ pts, dlbParsePoints dlbCands = .ok pts → pts ≠ []) ∧
    (dlbCands.filter (fun p => p.latitude.isSome && p.longitude.isSome) = [] →
      dlbParsePoints dlbCands = .error .noTelemetryData) := by
  refine ⟨?_, ?_, ?_, ?_, ?_, ?_⟩
  · intro pts hok
    simp only [djiParsePoints] at hok
    by_cases he : frames.isEmpty
    · simp [he] at hok
    · by_cases hz : (extractTelemetry sqrtFn frames total).isEmpty
      · simp [he, hz] at hok
      · simp only [he, hz, Bool.false_eq_true, if_false, Except.ok.injEq] at hok
        rw [← hok]
        simpa [List.isEmpty_iff] using hz
  · intro hz
    simp only [djiParsePoints]
    by_cases he : frames.isEmpty
    · simp [he]
    · simp [he, hz]
  · intro pts hok
    simp only [litchiParsePoints] at hok
    by_cases hz : (litchiNormalize
        (litchiCands.filter (fun p => p.latitude.isSome && p.longitude.isSome))).isEmpty
    · simp [hz] at hok
    · simp only [hz, Bool.false_eq_true, if_false, Except.ok.injEq] at hok
      rw [← hok]
      simpa [List.isEmpty_iff] using hz
  · intro hz
    simp [litchiParsePoints, hz, litchiNormalize]
  · intro pts hok
    simp only [dlbParsePoints] at hok
    by_cases hz : (dlbCands.filter (fun p => p.latitude.isSome && p.longitude.isSome)).isEmpty
    · simp [hz] at hok
    · simp only [hz, Bool.false_eq_true, if_false, Except.ok.injEq] at hok
      rw [← hok]
      simpa [List.isEmpty_iff] using hz
  · intro hz
    simp [dlbParsePoints, hz]

/-- Witness for C8: a one-frame binary log whose only frame is corrupt fails
with `NoTelemetryData`, and a CSV candidate row without coordinates likewise. -/
theorem parse_zero_points_contract_witness :
    (extractTelemetry (fun q => q)
        [{ osd := { latitude := .nan, longitude := .finite 0, altitude := .finite 0,
                    height := .finite 0, xSpeed := .finite 0, ySpeed := .finite 0,
                    zSpeed := .finite 0 } }] 0 = [] ∧
      djiParsePoints (fun q => q)
        [{ osd := { latitude := .nan, longitude := .finite 0, altitude := .finite 0,
                    height := .finite 0, xSpeed := .finite 0, ySpeed := .finite 0,
                    zSpeed := .finite 0 } }] 0 = .error .noTelemetryData) ∧
    litchiParsePoints [{}] = .error .noTelemetryData :=
  ⟨⟨by decide,
    (parse_zero_points_contract (fun q => q)
        [{ osd := { latitude := .nan, longitude := .finite 0, altitude := .finite 0,
                    height := .finite 0, xSpeed := .finite 0, ySpeed := .finite 0,
                    zSpeed := .finite 0 } }] 0 [] []).2.1 (by decide)⟩,
    (parse_zero_points_contract (fun q => q) [] 0 [{}] []).2.2.2.1 (by decide)⟩

/-- The GPS classification contract of one processed (non-corrupt) frame:
the point is emitted; near-(0,0) coordinates give an absent position counted
as no-lock; out-of-range coordinates give an absent position counted in the
separate out-of-range counter; otherwise both coordinates are present and
equal the frame's values. -/
def gpsClassified (f : Frame) (st st2 : ExtractState) : Prop :=
  ∃ p : TelemetryPoint, st2.points = st.points ++ [p] ∧
    ((|f.osd.latitude.val| < 1/1000000 ∧ |f.osd.longitude.val| < 1/1000000) →
      p.latitude = none ∧ p.longitude = none ∧
      st2.skippedNoGps = st.skippedNoGps + 1 ∧
      st2.skippedOutOfRange = st.skippedOutOfRange) ∧
    ((90 < |f.osd.latitude.val| ∨ 180 < |f.osd.longitude.val|) →
      p.latitude = none ∧ p.longitude = none ∧
      st2.skippedOutOfRange = st.skippedOutOfRange + 1 ∧
      st2.skippedNoGps = st.skippedNoGps) ∧
    (¬(|f.osd.latitude.val| < 1/1000000 ∧ |f.osd.longitude.val| < 1/1000000) →
      |f.osd.latitude.val| ≤ 90 → |f.osd.longitude.val| ≤ 180 →
      p.latitude = some f.osd.latitude.val ∧ p.longitude = some f.osd.longitude.val)

/-- C2.  For every non-corrupt frame, telemetry extraction classifies the GPS
position: both coordinates absent and the no-lock counter bumped when the
frame sits within 1e-6 degrees of (0,0); both coordinates absent and the
distinct out-of-range counter bumped when |lat| > 90 or |lon| > 180; both
coordinates present and equal to the frame's values otherwise. -/
theorem gps_classification (sqrtFn : ℚ → ℚ) (d : ℤ) (st : ExtractState) (f : Frame)
    (hok : frameCorrupt f = false) :
    gpsClassified f st (processFrame sqrtFn d st f) := by
  refine ⟨pointOfFrame sqrtFn f (currentTimestampMs st.tsAcc f), ?_, ?_, ?_, ?_⟩
  · simp [processFrame, hok]
  · rintro ⟨hla, hlo⟩
    have hlock : hasGpsLock f = false := by
      have h1 : decide (|f.osd.latitude.val| < 1/1000000) = true := decide_eq_true hla
      have h2 : decide (|f.osd.longitude.val| < 1/1000000) = true := decide_eq_true hlo
      unfold hasGpsLock
      rw [h1, h2]
      rfl
    refine ⟨?_, ?_, ?_, ?_⟩
    · simp [pointOfFrame, hlock]
    · simp [pointOfFrame, hlock]
    · simp [processFrame, hok, hlock]
    · simp [processFrame, hok, hlock]
  · intro hrange
    have hlock : hasGpsLock f = true := by
      simp only [hasGpsLock, Bool.not_eq_true', Bool.and_eq_false_iff,
        decide_eq_false_iff_not, not_lt]
      rcases hrange with h | h
      · exact Or.inl (by linarith)
      · exact Or.inr (by linarith)
    have hinr : gpsInRange f = false := by
      simp only [gpsInRange, Bool.and_eq_false_iff, decide_eq_false_iff_not, not_le]
      rcases hrange with h | h
      · exact Or.inl h
      · exact Or.inr h
    refine ⟨?_, ?_, ?_, ?_⟩
    · simp [pointOfFrame, hinr]
    · simp [pointOfFrame, hinr]
    · simp [processFrame, hok, hlock, hinr]
    · simp [processFrame, hok, hlock, hinr]
  · intro hnz hla hlo
    have hlock : hasGpsLock f = true := by
      simp only [hasGpsLock, Bool.not_eq_true', Bool.and_eq_false_iff,
        decide_eq_false_iff_not, not_lt]
      by_cases h : |f.osd.latitude.val| < 1/1000000
      · exact Or.inr (le_of_not_lt (fun h2 => hnz ⟨h, h2⟩))
      · exact Or.inl (le_of_not_lt h)
    have hinr : gpsInRange f = true := by
      simp [gpsInRange, hla, hlo]
    constructor
    · simp [pointOfFrame, hlock, hinr]
    · simp [pointOfFrame, hlock, hinr]

/-- The no-lock example frame of the spec: finite coordinates
(0.0000001, -0.0000002), within the 1e-6 degree epsilon of (0,0). -/
def exNoLockFrame : Frame :=
  { osd := { latitude := .finite (1/10000000), longitude := .finite (-1/5000000),
             altitude := .finite 0, height := .finite 0,
             xSpeed := .finite 0, ySpeed := .finite 0, zSpeed := .finite 0 } }

/-- Witness for C2: the spec example — a frame at (0.0000001, -0.0000002) is
non-corrupt and satisfies the classification contract. -/
theorem gps_classification_witness :
    frameCorrupt exNoLockFrame = false ∧
    gpsClassified exNoLockFrame {} (processFrame (fun q => q) 100 {} exNoLockFrame) :=
  ⟨by decide, gps_classification (fun q => q) 100 {} exNoLockFrame (by decide)⟩

/-- Propositional characterization of the keep-order relation. -/
theorem outranks_eq_true_iff (g f : FlightRow) :
    outranks g f = true ↔
      f.pointCount < g.pointCount
        ∨ (g.pointCount = f.pointCount ∧ g.id < f.id) := by
  simp [outranks]

/-- Propositional characterization of deletion by the hash pass. -/
theorem hashDoomed_eq_true_iff (fs : List FlightRow) (f : FlightRow) :
    hashDoomed fs f = true ↔
      hashValid f = true ∧ ∃ g ∈ fs, ¬g.id = f.id ∧ hashValid g = true ∧
        g.fileHash = f.fileHash ∧ outranks g f = true := by
  simp only [hashDoomed, Bool.and_eq_true, List.any_eq_true, Bool.not_eq_true',
    beq_eq_false_iff_ne, ne_eq, beq_iff_eq]
  aesop

/-- Propositional characterization of deletion by the signature pass. -/
theorem sigDoomed_eq_true_iff (fs : List FlightRow) (f : FlightRow) :
    sigDoomed fs f = true ↔
      sigValid f = true ∧ ∃ g ∈ fs, sigValid g = true ∧ sameSig g f = true ∧
        ((g.id < f.id ∧ f.pointCount ≤ g.pointCount)
          ∨ (f.id < g.id ∧ f.pointCount < g.pointCount)) := by
  simp only [sigDoomed, Bool.and_eq_true, List.any_eq_true, Bool.or_eq_true,
    decide_eq_true_eq]
  aesop

/-- Deletion by the hash pass is monotone in the candidate set. -/
theorem hashDoomed_mono {fs1 fs2 : List FlightRow} (hsub : ∀ g ∈ fs2, g ∈ fs1)
    {f : FlightRow} (h : hashDoomed fs2 f = true) : hashDoomed fs1 f = true := by
  rw [hashDoomed_eq_true_iff] at h ⊢
  obtain ⟨hv, g, hg, hrest⟩ := h
  exact ⟨hv, g, hsub g hg, hrest⟩

/-- Deletion by the signature pass is monotone in the candidate set. -/
theorem sigDoomed_mono {fs1 fs2 : List FlightRow} (hsub : ∀ g ∈ fs2, g ∈ fs1)
    {f : FlightRow} (h : sigDoomed fs2 f = true) : sigDoomed fs1 f = true := by
  rw [sigDoomed_eq_true_iff] at h ⊢
  obtain ⟨hv, g, hg, hrest⟩ := h
  exact ⟨hv, g, hsub g hg, hrest⟩

/-- After one full deduplication round, neither pass finds anything left to
delete: both passes fix the surviving flight list. -/
theorem dedup_passes_stable (fs : List FlightRow) :
    dedupHashPass (dedupSigPass (dedupHashPass fs)) = dedupSigPass (dedupHashPass fs)
      ∧ dedupSigPass (dedupSigPass (dedupHashPass fs)) = dedupSigPass (dedupHashPass fs) := by
  set fs1 := dedupHashPass fs with hfs1
  set fs2 := dedupSigPass fs1 with hfs2
  have hsub21 : ∀ g ∈ fs2, g ∈ fs1 := by
    intro g hg
    exact (List.mem_filter.mp hg).1
  have hsub1 : ∀ g ∈ fs1, g ∈ fs := by
    intro g hg
    exact (List.mem_filter.mp hg).1
  have hsub2 : ∀ g ∈ fs2, g ∈ fs := fun g hg => hsub1 g (hsub21 g hg)
  constructor
  · refine List.filter_eq_self.mpr ?_
    intro f hf
    have hf1 : f ∈ fs1 := hsub21 f hf
    have hnot : ¬hashDoomed fs f = true := by
      have := (List.mem_filter.mp hf1).2
      simpa using this
    simp only [Bool.not_eq_true']
    by_contra hc
    simp only [Bool.not_eq_false] at hc
    exact hnot (hashDoomed_mono hsub2 hc)
  · refine List.filter_eq_self.mpr ?_
    intro f hf
    have hnot : ¬sigDoomed fs1 f = true := by
      have := (List.mem_filter.mp hf).2
      simpa using this
    simp only [Bool.not_eq_true']
    by_contra hc
    simp only [Bool.not_eq_false] at hc
    exact hnot (sigDoomed_mono hsub21 hc)

/-- C5.  The deduplication engine is idempotent: for every database state
(well-formed in that flight ids are unique, the table's primary key), running
`deduplicate_flights` a second time with no data added in between returns the
state of the first run unchanged and reports zero deletions. -/
theorem dedup_idempotent (db : Db) (hids : (db.flights.map (·.id)).Nodup) :
    deduplicateFlights (deduplicateFlights db).1 = ((deduplicateFlights db).1, 0) := by
  obtain ⟨fl, tel, tg, ms, kc, eqn⟩ := db
  obtain ⟨h1, h2⟩ := dedup_passes_stable fl
  set fs2 := dedupSigPass (dedupHashPass fl) with hfs2
  have hflights : dedupSigPass (dedupHashPass fs2) = fs2 := by
    rw [h1, h2]
  simp only [deduplicateFlights, hflights]
  have hfilter : ∀ (rows : List TelemetryRow),
      (rows.filter (fun t => fs2.any (fun f => f.id == t.flightId))).filter
        (fun t => fs2.any (fun f => f.id == t.flightId))
      = rows.filter (fun t => fs2.any (fun f => f.id == t.flightId)) := by
    intro rows
    refine List.filter_eq_self.mpr ?_
    intro t ht
    exact (List.mem_filter.mp ht).2
  have hfiltertag : ∀ (rows : List TagRow),
      (rows.filter (fun t => fs2.any (fun f => f.id == t.flightId))).filter
        (fun t => fs2.any (fun f => f.id == t.flightId))
      = rows.filter (fun t => fs2.any (fun f => f.id == t.flightId)) := by
    intro rows
    refine List.filter_eq_self.mpr ?_
    intro t ht
    exact (List.mem_filter.mp ht).2
  simp [hfilter, hfiltertag]

/-- Witness for C5: a concrete three-flight state with one hash-duplicate
pair; flight ids are unique, and re-running deduplication on the result of the
first run removes nothing. -/
theorem dedup_idempotent_witness :
    ((([{ id := 1, fileHash := some "h", pointCount := 5 },
        { id := 2, fileHash := some "h", pointCount := 9 },
        { id := 3, fileHash := some "k", pointCount := 1 }] :
          List FlightRow).map (·.id)).Nodup) ∧
    deduplicateFlights (deduplicateFlights
        { flights := [{ id := 1, fileHash := some "h", pointCount := 5 },
                      { id := 2, fileHash := some "h", pointCount := 9 },
                      { id := 3, fileHash := some "k", pointCount := 1 }] }).1
      = ((deduplicateFlights
          { flights := [{ id := 1, fileHash := some "h", pointCount := 5 },
                        { id := 2, fileHash := some "h", pointCount := 9 },
                        { id := 3, fileHash := some "k", pointCount := 1 }] }).1, 0) :=
  ⟨by decide,
    dedup_idempotent
      { flights := [{ id := 1, fileHash := some "h", pointCount := 5 },
                    { id := 2, fileHash := some "h", pointCount := 9 },
                    { id := 3, fileHash := some "k", pointCount := 1 }] }
      (by decide)⟩

/-- The keep order is asymmetric: at most one of two flights outranks the
other. -/
theorem outranks_asymm {a b : FlightRow} (h : outranks a b = true) :
    outranks b a = false := by
  rw [outranks_eq_true_iff] at h
  rw [Bool.eq_false_iff]
  intro hc
  rw [outranks_eq_true_iff] at hc
  rcases h with h | ⟨h1, h2⟩ <;> rcases hc with hc | ⟨hc1, hc2⟩ <;> omega

/-- The dedup signature relation is symmetric. -/
theorem sameSig_comm (a b : FlightRow) : sameSig a b = sameSig b a := by
  rw [Bool.eq_iff_iff]
  simp only [sameSig, Bool.and_eq_true, beq_iff_eq]
  constructor <;> rintro ⟨⟨h1, h2⟩, h3⟩ <;> exact ⟨⟨h1.symm, h2.symm⟩, h3.symm⟩

/-- In a two-flight database whose flights form a duplicate pair (by valid
content hash or by valid signature), a dedup pass keeps exactly the flight
that outranks the other, whichever order the two rows were inserted in. -/
theorem pair_dedup_keeps_winner (a b : FlightRow) (hid : ¬a.id = b.id)
    (hdup : (hashValid a = true ∧ hashValid b = true ∧ a.fileHash = b.fileHash) ∨
            (sigValid a = true ∧ sigValid b = true ∧ sameSig a b = true))
    (hw : outranks a b = true) :
    (deduplicateFlights { flights := [a, b] }).1.flights = [a] ∧
    (deduplicateFlights { flights := [b, a] }).1.flights = [a] := by
  have oba : outranks b a = false := outranks_asymm hw
  have memPair : ∀ (x y g : FlightRow), g ∈ [x, y] → g = x ∨ g = y := by
    intro x y g hg
    simpa using hg
  have hdAnever : ∀ l : List FlightRow, (∀ g ∈ l, g = a ∨ g = b) →
      hashDoomed l a = false := by
    intro l hl
    rw [Bool.eq_false_iff]
    intro hc
    rw [hashDoomed_eq_true_iff] at hc
    obtain ⟨-, g, hg, hne, -, -, ho⟩ := hc
    rcases hl g hg with rfl | rfl
    · exact hne rfl
    · rw [oba] at ho
      exact Bool.false_ne_true ho
  have sdAnever : ∀ l : List FlightRow, (∀ g ∈ l, g = a ∨ g = b) →
      sigDoomed l a = false := by
    intro l hl
    rw [Bool.eq_false_iff]
    intro hc
    rw [sigDoomed_eq_true_iff] at hc
    obtain ⟨-, g, hg, -, -, hcase⟩ := hc
    have hw2 := (outranks_eq_true_iff a b).mp hw
    rcases hl g hg with rfl | rfl
    · rcases hcase with ⟨h1, h2⟩ | ⟨h1, h2⟩ <;> omega
    · rcases hcase with ⟨h1, h2⟩ | ⟨h1, h2⟩ <;> rcases hw2 with h | ⟨h3, h4⟩ <;> omega
  have sigB : ∀ l : List FlightRow, a ∈ l →
      (sigValid a = true ∧ sigValid b = true ∧ sameSig a b = true) →
      sigDoomed l b = true := by
    intro l hal ⟨hva, hvb, hss⟩
    rw [sigDoomed_eq_true_iff]
    refine ⟨hvb, a, hal, hva, hss, ?_⟩
    have hw2 := (outranks_eq_true_iff a b).mp hw
    rcases hw2 with h | ⟨h1, h2⟩ <;> omega
  have pass2single : dedupSigPass [a] = [a] := by
    have := sdAnever [a] (by intro g hg; simpa using Or.inl (by simpa using hg))
    simp [dedupSigPass, List.filter, this]
  rcases hdup with ⟨hva, hvb, hfh⟩ | hsig
  · -- hash duplicates: the hash pass already deletes the loser
    have hdB : ∀ l : List FlightRow, a ∈ l → hashDoomed l b = true := by
      intro l hal
      rw [hashDoomed_eq_true_iff]
      exact ⟨hvb, a, hal, hid, hva, hfh, hw⟩
    have p1 : dedupHashPass [a, b] = [a] := by
      have h1 := hdAnever [a, b] (memPair a b)
      have h2 := hdB [a, b] (by simp)
      simp [dedupHashPass, List.filter, h1, h2]
    have p1r : dedupHashPass [b, a] = [a] := by
      have h1 := hdAnever [b, a] (fun g hg => (memPair b a g hg).symm)
      have h2 := hdB [b, a] (by simp)
      simp [dedupHashPass, List.filter, h1, h2]
    constructor
    · simp [deduplicateFlights, p1, pass2single]
    · simp [deduplicateFlights, p1r, pass2single]
  · -- signature duplicates: whichever pass fires first, the loser goes
    have main : ∀ (l : List FlightRow), l = [a, b] ∨ l = [b, a] →
        dedupSigPass (dedupHashPass l) = [a] := by
      intro l hl
      have hmem : ∀ g ∈ l, g = a ∨ g = b := by
        rcases hl with rfl | rfl
        · exact memPair a b
        · exact fun g hg => (memPair b a g hg).symm
      have hal : a ∈ l := by rcases hl with rfl | rfl <;> simp
      have hdA := hdAnever l hmem
      by_cases hdB : hashDoomed l b = true
      · have p1 : dedupHashPass l = [a] := by
          rcases hl with rfl | rfl
          · simp [dedupHashPass, List.filter, hdA, hdB]
          · simp [dedupHashPass, List.filter, hdA, hdB]
        rw [p1, pass2single]
      · have hdB2 : hashDoomed l b = false := by
          simpa using hdB
        have p1 : dedupHashPass l = l := by
          refine List.filter_eq_self.mpr ?_
          intro g hg
          rcases hmem g hg with rfl | rfl <;> simp [hdA, hdB2]
        rw [p1]
        have sB := sigB l hal hsig
        have sA := sdAnever l hmem
        rcases hl with rfl | rfl
        · simp [dedupSigPass, List.filter, sA, sB]
        · simp [dedupSigPass, List.filter, sA, sB]
    constructor
    · simpa [deduplicateFlights] using congrArg id (main [a, b] (Or.inl rfl))
    · simpa [deduplicateFlights] using congrArg id (main [b, a] (Or.inr rfl))

/-- The tie-break contract of one dedup pass on a two-flight database holding
a duplicate pair: the record with fewer telemetry points is deleted whatever
the insertion order; at equal point counts the record with the higher id is
deleted. -/
def pairTiebreakSpec (a b : FlightRow) : Prop :=
  (b.pointCount < a.pointCount →
    (deduplicateFlights { flights := [a, b] }).1.flights = [a] ∧
    (deduplicateFlights { flights := [b, a] }).1.flights = [a]) ∧
  (a.pointCount < b.pointCount →
    (deduplicateFlights { flights := [a, b] }).1.flights = [b] ∧
    (deduplicateFlights { flights := [b, a] }).1.flights = [b]) ∧
  (a.pointCount = b.pointCount →
    (deduplicateFlights { flights := [a, b] }).1.flights
      = [if a.id < b.id then a else b] ∧
    (deduplicateFlights { flights := [b, a] }).1.flights
      = [if a.id < b.id then a else b])

/-- C6.  For a pair of flight records with identical dedup signature (same
drone serial, battery serial and exact start time, all valid) or the same
valid content hash, a dedup pass always deletes the record with fewer
telemetry points regardless of insertion order; at equal point counts the
record with the higher internal id is deleted. -/
theorem dedup_pair_tiebreak (a b : FlightRow) (hid : ¬a.id = b.id)
    (hdup : (hashValid a = true ∧ hashValid b = true ∧ a.fileHash = b.fileHash) ∨
            (sigValid a = true ∧ sigValid b = true ∧ sameSig a b = true)) :
    pairTiebreakSpec a b := by
  have hdupSymm :
      (hashValid b = true ∧ hashValid a = true ∧ b.fileHash = a.fileHash) ∨
      (sigValid b = true ∧ sigValid a = true ∧ sameSig b a = true) := by
    rcases hdup with ⟨h1, h2, h3⟩ | ⟨h1, h2, h3⟩
    · exact Or.inl ⟨h2, h1, h3.symm⟩
    · exact Or.inr ⟨h2, h1, by rw [← sameSig_comm]; exact h3⟩
  refine ⟨?_, ?_, ?_⟩
  · intro hpc
    have hw : outranks a b = true := by
      rw [outranks_eq_true_iff]
      exact Or.inl hpc
    exact pair_dedup_keeps_winner a b hid hdup hw
  · intro hpc
    have hw : outranks b a = true := by
      rw [outranks_eq_true_iff]
      exact Or.inl hpc
    have h := pair_dedup_keeps_winner b a (fun h => hid h.symm) hdupSymm hw
    exact ⟨h.2, h.1⟩
  · intro hpc
    rcases lt_trichotomy a.id b.id with hlt | heq | hgt
    · have hw : outranks a b = true := by
        rw [outranks_eq_true_iff]
        exact Or.inr ⟨hpc, hlt⟩
      have h := pair_dedup_keeps_winner a b hid hdup hw
      rw [if_pos hlt]
      exact h
    · exact absurd heq hid
    · have hw : outranks b a = true := by
        rw [outranks_eq_true_iff]
        exact Or.inr ⟨hpc.symm, hgt⟩
      have h := pair_dedup_keeps_winner b a (fun h => hid h.symm) hdupSymm hw
      rw [if_neg (by omega)]
      exact ⟨h.2, h.1⟩

/-- Witness for C6: two concrete flights sharing a valid signature with
different hashes and point counts 10 versus 3. -/
theorem dedup_pair_tiebreak_witness :
    (¬(1 : ℤ) = 2) ∧
    pairTiebreakSpec
      { id := 1, fileHash := some "ha", droneSerial := some "D",
        batterySerial := some "B", startTime := some 0, pointCount := 10 }
      { id := 2, fileHash := some "hb", droneSerial := some "D",
        batterySerial := some "B", startTime := some 0, pointCount := 3 } :=
  ⟨by decide,
    dedup_pair_tiebreak
      { id := 1, fileHash := some "ha", droneSerial := some "D",
        batterySerial := some "B", startTime := some 0, pointCount := 10 }
      { id := 2, fileHash := some "hb", droneSerial := some "D",
        batterySerial := some "B", startTime := some 0, pointCount := 3 }
      (by decide) (Or.inr (by decide))⟩

/-- First example row: timestamp 0 ms, battery 100%. -/
def exRowA : TelemetryRecord :=
  { timestamp_ms := 0, battery_percent := some 100 }

/-- Second example row: timestamp 500 ms, battery 0%; same 1000 ms bucket as
`exRowA`. -/
def exRowB : TelemetryRecord :=
  { timestamp_ms := 500, battery_percent := some 0 }

/-- The bucket width is at least 1000 ms, in particular positive
(`database.rs:1219`). -/
theorem bucketSizeMs_pos (rows : List TelemetryRecord) (targetPoints : ℕ) :
    0 < bucketSizeMs rows targetPoints :=
  lt_of_lt_of_le (by norm_num) (le_max_right _ _)

/-- Exact arithmetic collapses the grouping expression: dividing a timestamp
by the nonzero bucket width and multiplying back returns the timestamp
itself, so `bucket_ts` takes one distinct value per distinct timestamp. -/
theorem bucketTs_eq_timestamp (bucket : ℤ) (hb : bucket ≠ 0)
    (r : TelemetryRecord) : bucketTs bucket r = (r.timestamp_ms : ℚ) := by
  rw [bucketTs]
  exact div_mul_cancel₀ _ (by exact_mod_cast hb)

/-- With pairwise-distinct timestamps the `bucket_ts` values are pairwise
distinct. -/
theorem bucketTs_map_nodup (rows : List TelemetryRecord) (bucket : ℤ)
    (hb : bucket ≠ 0) (hnd : (rows.map (·.timestamp_ms)).Nodup) :
    (rows.map (bucketTs bucket)).Nodup := by
  have hmap : rows.map (bucketTs bucket)
      = rows.map (fun r => (r.timestamp_ms : ℚ)) :=
    List.map_congr_left (fun r _ => bucketTs_eq_timestamp bucket hb r)
  have hmap2 : rows.map (fun r => (r.timestamp_ms : ℚ))
      = (rows.map (·.timestamp_ms)).map (fun t : ℤ => (t : ℚ)) := by
    rw [List.map_map]
    rfl
  rw [hmap, hmap2]
  exact hnd.map (fun a b h => by exact_mod_cast h)

/-- In a list whose images under `f` are pairwise distinct, filtering for the
image of a member returns exactly that member. -/
theorem filter_eq_singleton_of_nodup_map {α β : Type} [DecidableEq β]
    (f : α → β) (l : List α) (hnd : (l.map f).Nodup) (p : α) (hp : p ∈ l) :
    l.filter (fun q => f q = f p) = [p] := by
  induction l with
  | nil => cases hp
  | cons a t ih =>
    rw [List.map_cons, List.nodup_cons] at hnd
    rcases List.mem_cons.mp hp with rfl | hpt
    · rw [List.filter_cons_of_pos (by simp)]
      have hnil : t.filter (fun q => f q = f p) = [] := by
        rw [List.filter_eq_nil_iff]
        intro q hq hfq
        rw [decide_eq_true_eq] at hfq
        exact hnd.1 (hfq ▸ List.mem_map_of_mem f hq)
      rw [hnil]
    · have hne : ¬f a = f p := fun h => hnd.1 (h ▸ List.mem_map_of_mem f hpt)
      rw [List.filter_cons_of_neg (by simpa using hne)]
      exact ih hnd.2 hpt

/-- Under a nonzero bucket width, filtering a flight for one `bucket_ts` value
filters for one timestamp; with pairwise-distinct timestamps this leaves
exactly the one row carrying it: every group of the downsampled query is a
single raw point. -/
theorem filter_bucketTs_eq_singleton (rows : List TelemetryRecord)
    (bucket : ℤ) (hb : bucket ≠ 0) (hnd : (rows.map (·.timestamp_ms)).Nodup)
    (p : TelemetryRecord) (hp : p ∈ rows) :
    rows.filter (fun q => bucketTs bucket q = bucketTs bucket p) = [p] := by
  have hcongr : rows.filter (fun q => bucketTs bucket q = bucketTs bucket p)
      = rows.filter (fun q => q.timestamp_ms = p.timestamp_ms) := by
    apply List.filter_congr
    intro q hq
    apply decide_eq_decide.mpr
    rw [bucketTs_eq_timestamp bucket hb, bucketTs_eq_timestamp bucket hb]
    exact Int.cast_injective.eq_iff
  rw [hcongr]
  exact filter_eq_singleton_of_nodup_map (·.timestamp_ms) rows hnd p hp

/-- The floor of one half is zero. -/
theorem floor_one_half : ⌊(1 / 2 : ℚ)⌋ = 0 := by
  rw [Int.floor_eq_zero_iff, Set.mem_Ico]
  norm_num

/-- Rounding an exact integer value half away from zero is the identity. -/
theorem roundAway_intCast (a : ℤ) : roundAway ((a : ℚ)) = a := by
  rw [roundAway]
  by_cases h : (0 : ℚ) ≤ (a : ℚ)
  · rw [if_pos h, ratFloor_eq_floor]
    rw [show ((a : ℚ) + 1 / 2) = (1 / 2 : ℚ) + (a : ℤ) by ring]
    rw [Int.floor_add_int, floor_one_half]
    omega
  · rw [if_neg h, ratCeil, ratFloor_eq_floor]
    rw [show (-((a : ℚ) - 1 / 2)) = (1 / 2 : ℚ) + ((-a : ℤ) : ℚ) by push_cast; ring]
    rw [Int.floor_add_int, floor_one_half]
    omega

/-- `AVG(x)::INTEGER` (and `ROUND(AVG(x))::INTEGER`) over a one-row group is
the row's own value. -/
theorem optIntAvgCast_singleton (x : Option ℤ) : optIntAvgCast [x] = x := by
  cases x with
  | none => rfl
  | some a =>
    have h1 : (([some a] : List (Option ℤ)).filterMap id) = [a] := rfl
    simp only [optIntAvgCast, h1, List.isEmpty_cons, Bool.false_eq_true, if_false,
      List.sum_cons, List.sum_nil, add_zero, List.length_cons, List.length_nil,
      Nat.cast_one, Nat.cast_zero, zero_add, div_one]
    rw [roundAway_intCast]

/-- The field-provenance contract of one downsampled output record: some raw
point of its group is earliest by timestamp there, every integer and
categorical column of the record equals that point's value, and every
floating-point column is the `AVG` over the group's raw points. -/
def downsampleRecProvenance (rows : List TelemetryRecord) (b : ℤ)
    (rec : TelemetryRecord) : Prop :=
  ∃ p ∈ rows,
    (∀ q ∈ rows, bucketTs b q = bucketTs b p → p.timestamp_ms ≤ q.timestamp_ms) ∧
    rec.battery_percent = p.battery_percent ∧
    rec.satellites = p.satellites ∧
    rec.rc_signal = p.rc_signal ∧
    rec.rc_uplink = p.rc_uplink ∧
    rec.rc_downlink = p.rc_downlink ∧
    rec.flight_mode = p.flight_mode ∧
    rec.cell_voltages = p.cell_voltages ∧
    rec.latitude
      = optRatAvg ((rows.filter (fun q => bucketTs b q = bucketTs b p)).map
          (·.latitude)) ∧
    rec.longitude
      = optRatAvg ((rows.filter (fun q => bucketTs b q = bucketTs b p)).map
          (·.longitude)) ∧
    rec.altitude
      = optRatAvg ((rows.filter (fun q => bucketTs b q = bucketTs b p)).map
          (·.altitude)) ∧
    rec.height
      = optRatAvg ((rows.filter (fun q => bucketTs b q = bucketTs b p)).map
          (·.height)) ∧
    rec.vps_height
      = optRatAvg ((rows.filter (fun q => bucketTs b q = bucketTs b p)).map
          (·.vps_height)) ∧
    rec.speed
      = optRatAvg ((rows.filter (fun q => bucketTs b q = bucketTs b p)).map
          (·.speed)) ∧
    rec.velocity_x
      = optRatAvg ((rows.filter (fun q => bucketTs b q = bucketTs b p)).map
          (·.velocity_x)) ∧
    rec.velocity_y
      = optRatAvg ((rows.filter (fun q => bucketTs b q = bucketTs b p)).map
          (·.velocity_y)) ∧
    rec.velocity_z
      = optRatAvg ((rows.filter (fun q => bucketTs b q = bucketTs b p)).map
          (·.velocity_z)) ∧
    rec.battery_voltage
      = optRatAvg ((rows.filter (fun q => bucketTs b q = bucketTs b p)).map
          (·.battery_voltage)) ∧
    rec.battery_temp
      = optRatAvg ((rows.filter (fun q => bucketTs b q = bucketTs b p)).map
          (·.battery_temp)) ∧
    rec.pitch
      = optRatAvg ((rows.filter (fun q => bucketTs b q = bucketTs b p)).map
          (·.pitch)) ∧
    rec.roll
      = optRatAvg ((rows.filter (fun q => bucketTs b q = bucketTs b p)).map
          (·.roll)) ∧
    rec.yaw
      = optRatAvg ((rows.filter (fun q => bucketTs b q = bucketTs b p)).map
          (·.yaw)) ∧
    rec.rc_aileron
      = optRatAvg ((rows.filter (fun q => bucketTs b q = bucketTs b p)).map
          (·.rc_aileron)) ∧
    rec.rc_elevator
      = optRatAvg ((rows.filter (fun q => bucketTs b q = bucketTs b p)).map
          (·.rc_elevator)) ∧
    rec.rc_throttle
      = optRatAvg ((rows.filter (fun q => bucketTs b q = bucketTs b p)).map
          (·.rc_throttle)) ∧
    rec.rc_rudder
      = optRatAvg ((rows.filter (fun q => bucketTs b q = bucketTs b p)).map
          (·.rc_rudder))

/-- C4.  Over rows with pairwise-distinct timestamps — the shape
`bulk_insert_telemetry` (`database.rs:829-913`) stores, since it skips every
duplicate timestamp of a flight — each downsampled output record's integer
and categorical fields (`battery_percent`, `satellites`, `rc_signal`,
`rc_uplink`, `rc_downlink`, `flight_mode`, `cell_voltages`) equal the value
of the earliest-by-timestamp raw point of its bucket, and each floating-point
field is the average over the bucket: DuckDB evaluates the grouping
expression with float division, so every `GROUP BY bucket_ts` group is a
single raw point and every aggregate collapses to that point's own value. -/
theorem downsample_field_provenance (rows : List TelemetryRecord)
    (targetPoints : ℕ) (hnd : (rows.map (·.timestamp_ms)).Nodup) :
    ∀ rec ∈ queryDownsampledTelemetry rows targetPoints,
      downsampleRecProvenance rows (bucketSizeMs rows targetPoints) rec := by
  intro rec hrec
  simp only [queryDownsampledTelemetry, List.mem_map] at hrec
  obtain ⟨k, hk, hrec⟩ := hrec
  set b := bucketSizeMs rows targetPoints with hbdef
  have hb : b ≠ 0 := ne_of_gt (bucketSizeMs_pos rows targetPoints)
  have hkmem : k ∈ rows.map (bucketTs b) := by
    have h1 : k ∈ (rows.map (bucketTs b)).dedup := by
      rw [bucketTsSorted] at hk
      exact (List.perm_insertionSort (· ≤ ·) ((rows.map (bucketTs b)).dedup)).mem_iff.mp hk
    exact List.mem_dedup.mp h1
  obtain ⟨p, hp, hkp⟩ := List.mem_map.mp hkmem
  subst hkp
  subst hrec
  have hfilter : rows.filter (fun q => bucketTs b q = bucketTs b p) = [p] :=
    filter_bucketTs_eq_singleton rows b hb hnd p hp
  have hmin : ∀ q ∈ rows, bucketTs b q = bucketTs b p →
      p.timestamp_ms ≤ q.timestamp_ms := by
    intro q hq hkey
    have hts : (q.timestamp_ms : ℚ) = (p.timestamp_ms : ℚ) := by
      rw [← bucketTs_eq_timestamp b hb q, ← bucketTs_eq_timestamp b hb p]
      exact hkey
    have h2 : q.timestamp_ms = p.timestamp_ms := by exact_mod_cast hts
    omega
  refine ⟨p, hp, hmin, ?_, ?_, ?_, ?_, ?_, ?_, ?_, ?_, ?_, ?_, ?_, ?_, ?_, ?_,
      ?_, ?_, ?_, ?_, ?_, ?_, ?_, ?_, ?_, ?_, ?_⟩ <;>
    rw [hfilter] <;>
    first
      | exact optIntAvgCast_singleton _
      | rfl

/-- Witness for C4: the two example rows carry distinct timestamps 0 and
500 ms, and every record of their downsampled query satisfies the
field-provenance contract. -/
theorem downsample_field_provenance_witness :
    (([exRowA, exRowB].map (·.timestamp_ms)).Nodup) ∧
    ∀ rec ∈ queryDownsampledTelemetry [exRowA, exRowB] 1,
      downsampleRecProvenance [exRowA, exRowB] (bucketSizeMs [exRowA, exRowB] 1)
        rec :=
  ⟨by decide, downsample_field_provenance [exRowA, exRowB] 1 (by decide)⟩

/-- Row of the C3 witness with timestamp 999 ms. -/
def exRowT1 : TelemetryRecord := { timestamp_ms := 999 }

/-- Row of the C3 witness with timestamp 1001 ms. -/
def exRowT2 : TelemetryRecord := { timestamp_ms := 1001 }

/-- The retrieval outcome of `get_flight_telemetry`: at or below `maxPoints`
stored rows the raw rows come back exactly (a permutation of the stored rows,
in ascending timestamp order); above it, the downsampled query still returns
one record per stored row — the stored point count is never reduced. -/
def getTelemetryNoReduction (rows : List TelemetryRecord) (maxPoints : ℕ) :
    Prop :=
  (rows.length ≤ maxPoints →
    (getFlightTelemetry rows maxPoints).Perm rows ∧
    List.Sorted tsLE (getFlightTelemetry rows maxPoints)) ∧
  (maxPoints < rows.length →
    (getFlightTelemetry rows maxPoints).length = rows.length)

/-- C3 (code bug).  The raw half of the claim holds: at or below `maxPoints`
stored rows `get_flight_telemetry` returns exactly the stored records in
ascending timestamp order.  The bucketed half does not: DuckDB evaluates the
grouping expression `(timestamp_ms / ?) * ?` (`database.rs:1225`) with
floating-point division — `configure_connection` (`database.rs:159-167`)
never enables `integer_division` — so `bucket_ts` reproduces each timestamp,
`GROUP BY bucket_ts` forms one group per distinct stored timestamp, and
above `maxPoints` the query returns one record per stored row instead of at
most ⌈duration/bucket⌉ bucketed records: no downsampling occurs. -/
theorem getTelemetry_never_reduces (rows : List TelemetryRecord)
    (maxPoints : ℕ) (hnd : (rows.map (·.timestamp_ms)).Nodup) :
    getTelemetryNoReduction rows maxPoints := by
  constructor
  · intro hle
    have hbranch : getFlightTelemetry rows maxPoints
        = List.insertionSort tsLE rows := by
      rw [getFlightTelemetry, if_pos hle]
      rfl
    rw [hbranch]
    exact ⟨List.perm_insertionSort tsLE rows, List.sorted_insertionSort tsLE rows⟩
  · intro hlt
    have hbranch : getFlightTelemetry rows maxPoints
        = queryDownsampledTelemetry rows maxPoints := by
      rw [getFlightTelemetry, if_neg (by omega)]
    have hkeys : (rows.map (bucketTs (bucketSizeMs rows maxPoints))).Nodup :=
      bucketTs_map_nodup rows (bucketSizeMs rows maxPoints)
        (ne_of_gt (bucketSizeMs_pos rows maxPoints)) hnd
    rw [hbranch, queryDownsampledTelemetry, List.length_map, bucketTsSorted,
      (List.perm_insertionSort _ _).length_eq, List.dedup_eq_self.mpr hkeys,
      List.length_map]

/-- Witness for C3: two rows with distinct timestamps 999 and 1001 ms and a
point budget of 1 — the downsampled branch returns both rows. -/
theorem getTelemetry_never_reduces_witness :
    (([exRowT1, exRowT2].map (·.timestamp_ms)).Nodup) ∧
    getTelemetryNoReduction [exRowT1, exRowT2] 1 :=
  ⟨by decide, getTelemetry_never_reduces [exRowT1, exRowT2] 1 (by decide)⟩

/-- The frames that pass the finiteness check. -/
def survivorFrames (frames : List Frame) : List Frame :=
  frames.filter (fun f => !frameCorrupt f)

/-- Recursive presentation of the extraction loop: the points emitted from a
frame list given the running fallback timestamp accumulator. -/
def extractAux (sqrtFn : ℚ → ℚ) (d : ℤ) : ℤ → List Frame → List TelemetryPoint
  | _, [] => []
  | t, f :: fs =>
    if frameCorrupt f then extractAux sqrtFn d (currentTimestampMs t f + d) fs
    else pointOfFrame sqrtFn f (currentTimestampMs t f)
      :: extractAux sqrtFn d (currentTimestampMs t f + d) fs

/-- The fold of `processFrame` emits exactly the points of `extractAux`. -/
theorem foldl_processFrame_points (sqrtFn : ℚ → ℚ) (d : ℤ) :
    ∀ (frames : List Frame) (st : ExtractState),
      (List.foldl (processFrame sqrtFn d) st frames).points
        = st.points ++ extractAux sqrtFn d st.tsAcc frames := by
  intro frames
  induction frames with
  | nil =>
    intro st
    simp [extractAux]
  | cons f fs ih =>
    intro st
    rw [List.foldl_cons, ih]
    by_cases hc : frameCorrupt f
    · rw [extractAux, if_pos hc]
      have h1 : (processFrame sqrtFn d st f).points = st.points := by
        rw [processFrame, if_pos hc]
      have h2 : (processFrame sqrtFn d st f).tsAcc = currentTimestampMs st.tsAcc f + d := by
        rw [processFrame, if_pos hc]
      rw [h1, h2]
    · rw [extractAux, if_neg hc]
      have h1 : (processFrame sqrtFn d st f).points
          = st.points ++ [pointOfFrame sqrtFn f (currentTimestampMs st.tsAcc f)] := by
        rw [processFrame, if_neg hc]
      have h2 : (processFrame sqrtFn d st f).tsAcc = currentTimestampMs st.tsAcc f + d := by
        rw [processFrame, if_neg hc]
      rw [h1, h2, List.append_assoc]
      rfl

/-- `extract_telemetry` as the recursive loop started at accumulator 0. -/
theorem extractTelemetry_eq_aux (sqrtFn : ℚ → ℚ) (frames : List Frame) (T : ℚ) :
    extractTelemetry sqrtFn frames T
      = extractAux sqrtFn (fallbackIntervalMs frames T) 0 frames := by
  rw [extractTelemetry, foldl_processFrame_points]
  rfl

/-- A corrupt head frame is not a survivor. -/
theorem survivorFrames_cons_corrupt (f : Frame) (fs : List Frame)
    (h : frameCorrupt f = true) : survivorFrames (f :: fs) = survivorFrames fs := by
  simp [survivorFrames, List.filter_cons, h]

/-- A non-corrupt head frame survives. -/
theorem survivorFrames_cons_ok (f : Frame) (fs : List Frame)
    (h : ¬frameCorrupt f = true) : survivorFrames (f :: fs) = f :: survivorFrames fs := by
  simp [survivorFrames, List.filter_cons, h]

/-- Each run of the loop emits exactly one point per surviving frame, built
wholly from that frame (plus some timestamp): corrupt frames are dropped in
their entirety and contribute nothing. -/
theorem extractAux_zip (sqrtFn : ℚ → ℚ) (d : ℤ) :
    ∀ (frames : List Frame) (t : ℤ), ∃ tsl : List ℤ,
      tsl.length = (survivorFrames frames).length ∧
      extractAux sqrtFn d t frames
        = List.zipWith (pointOfFrame sqrtFn) (survivorFrames frames) tsl := by
  intro frames
  induction frames with
  | nil =>
    intro t
    exact ⟨[], rfl, rfl⟩
  | cons f fs ih =>
    intro t
    obtain ⟨tsl, hlen, heq⟩ := ih (currentTimestampMs t f + d)
    by_cases hc : frameCorrupt f
    · refine ⟨tsl, ?_, ?_⟩
      · rw [survivorFrames_cons_corrupt f fs hc]
        exact hlen
      · rw [extractAux, if_pos hc, heq, survivorFrames_cons_corrupt f fs hc]
    · refine ⟨currentTimestampMs t f :: tsl, ?_, ?_⟩
      · rw [survivorFrames_cons_ok f fs hc]
        simp [hlen]
      · rw [extractAux, if_neg hc, heq, survivorFrames_cons_ok f fs hc]
        rfl

/-- When every frame carries a positive in-record fly time, the emitted
points are determined frame-by-frame, independent of the accumulator and the
fallback interval. -/
theorem extractAux_all_flyTime (sqrtFn : ℚ → ℚ) :
    ∀ (frames : List Frame), (∀ f ∈ frames, 0 < f.osd.flyTime) →
      ∀ (d t : ℤ), extractAux sqrtFn d t frames
        = (survivorFrames frames).map
            (fun f => pointOfFrame sqrtFn f (truncZ (f.osd.flyTime * 1000))) := by
  intro frames
  induction frames with
  | nil =>
    intro _ d t
    rfl
  | cons f fs ih =>
    intro hall d t
    have hf : 0 < f.osd.flyTime := hall f (by simp)
    have hcur : currentTimestampMs t f = truncZ (f.osd.flyTime * 1000) := by
      rw [currentTimestampMs, if_pos hf]
    have ihf := ih (fun g hg => hall g (by simp [hg])) d (currentTimestampMs t f + d)
    by_cases hc : frameCorrupt f
    · rw [extractAux, if_pos hc, ihf, survivorFrames_cons_corrupt f fs hc]
    · rw [extractAux, if_neg hc, ihf, hcur, survivorFrames_cons_ok f fs hc]
      rfl

/-- When no frame carries a positive in-record fly time and the interval is
nonnegative, the loop emits timestamps bounded below by the accumulator and in
non-decreasing order. -/
theorem extractAux_no_flyTime_chain (sqrtFn : ℚ → ℚ) (d : ℤ) (hd : 0 ≤ d) :
    ∀ (frames : List Frame), (∀ f ∈ frames, ¬0 < f.osd.flyTime) →
      ∀ (t : ℤ),
        (∀ x ∈ (extractAux sqrtFn d t frames).map (·.timestamp_ms), t ≤ x) ∧
        List.Chain' (· ≤ ·) ((extractAux sqrtFn d t frames).map (·.timestamp_ms)) := by
  intro frames
  induction frames with
  | nil =>
    intro _ t
    constructor
    · intro x hx
      simp [extractAux] at hx
    · simp [extractAux]
  | cons f fs ih =>
    intro hall t
    have hf : ¬0 < f.osd.flyTime := hall f (by simp)
    have hcur : currentTimestampMs t f = t := by
      rw [currentTimestampMs, if_neg hf]
    have ihf := ih (fun g hg => hall g (by simp [hg])) (t + d)
    by_cases hc : frameCorrupt f
    · rw [extractAux, if_pos hc, hcur]
      refine ⟨?_, ihf.2⟩
      intro x hx
      have := ihf.1 x hx
      omega
    · rw [extractAux, if_neg hc, hcur]
      constructor
      · intro x hx
        simp only [List.map_cons, List.mem_cons] at hx
        rcases hx with rfl | hx
        · exact le_refl _
        · have := ihf.1 x hx
          omega
      · rw [List.map_cons]
        rw [List.chain'_cons']
        refine ⟨?_, ihf.2⟩
        intro y hy
        have hmem : y ∈ (extractAux sqrtFn d (t + d) fs).map (·.timestamp_ms) :=
          List.mem_of_mem_head? hy
        have h1 := ihf.1 y hmem
        have h2 : (pointOfFrame sqrtFn f t).timestamp_ms = t := rfl
        omega

/-- The fallback interval is never negative. -/
theorem fallbackIntervalMs_nonneg (frames : List Frame) (T : ℚ) :
    0 ≤ fallbackIntervalMs frames T := by
  rw [fallbackIntervalMs]
  by_cases hcond : (!hasFlyTime frames && 0 < T && !frames.isEmpty) = true
  · rw [if_pos hcond]
    simp only [Bool.and_eq_true, decide_eq_true_eq] at hcond
    have hq : 0 ≤ T * 1000 / (frames.length : ℚ) := by
      have hT := hcond.1.2
      positivity
    rw [roundAway, if_pos hq, ratFloor_eq_floor]
    rw [Int.le_floor]
    push_cast
    linarith
  · rw [if_neg hcond]
    norm_num

/-- Dropping corrupt frames is idempotent in the survivor view. -/
theorem survivorFrames_idem (frames : List Frame) :
    survivorFrames (survivorFrames frames) = survivorFrames frames :=
  List.filter_eq_self.mpr (fun _ ha => (List.mem_filter.mp ha).2)

/-- The timestamp of an emitted point is the timestamp it was built with. -/
theorem pointOfFrame_timestamp (sqrtFn : ℚ → ℚ) (f : Frame) (t : ℤ) :
    (pointOfFrame sqrtFn f t).timestamp_ms = t := rfl

/-- The corrupt-frame drop contract of telemetry extraction: (1) every
surviving point is built wholly from one non-corrupt frame, in frame order,
and corrupt frames contribute nothing; (2) when every frame carries an
in-record fly time, extraction equals extraction of the sequence without the
corrupt frames; (3) when no frame carries an in-record fly time, both
extractions emit timestamps in non-decreasing order. -/
def extractDropContract (sqrtFn : ℚ → ℚ) (frames : List Frame) (T : ℚ) : Prop :=
  (∃ tsl : List ℤ, tsl.length = (survivorFrames frames).length ∧
    extractTelemetry sqrtFn frames T
      = List.zipWith (pointOfFrame sqrtFn) (survivorFrames frames) tsl) ∧
  ((∀ f ∈ frames, 0 < f.osd.flyTime) →
    extractTelemetry sqrtFn frames T
      = extractTelemetry sqrtFn (survivorFrames frames) T) ∧
  ((∀ f ∈ frames, ¬0 < f.osd.flyTime) →
    List.Chain' (· ≤ ·) ((extractTelemetry sqrtFn frames T).map (·.timestamp_ms)) ∧
    List.Chain' (· ≤ ·)
      ((extractTelemetry sqrtFn (survivorFrames frames) T).map (·.timestamp_ms)))

/-- C1 (amended).  Any frame with a non-finite latitude, longitude, altitude,
height or velocity component is dropped in its entirety (no partially
salvaged point) and extraction continues with the remaining frames; the
surviving points' timestamp ordering matches extraction without the corrupt
frames when all frames report an in-record fly time, and is non-decreasing in
both runs when none do.  (In mixed sequences a corrupt frame's fly time can
reset the fallback accumulator and change the ordering — see the
counterexample.) -/
theorem extract_drops_corrupt_frames (sqrtFn : ℚ → ℚ) (frames : List Frame) (T : ℚ) :
    extractDropContract sqrtFn frames T := by
  refine ⟨?_, ?_, ?_⟩
  · rw [extractTelemetry_eq_aux]
    exact extractAux_zip sqrtFn _ frames 0
  · intro hall
    have hall2 : ∀ f ∈ survivorFrames frames, 0 < f.osd.flyTime :=
      fun f hf => hall f (List.mem_filter.mp hf).1
    rw [extractTelemetry_eq_aux, extractTelemetry_eq_aux]
    rw [extractAux_all_flyTime sqrtFn frames hall _ 0,
      extractAux_all_flyTime sqrtFn (survivorFrames frames) hall2 _ 0,
      survivorFrames_idem]
  · intro hnone
    have hnone2 : ∀ f ∈ survivorFrames frames, ¬0 < f.osd.flyTime :=
      fun f hf => hnone f (List.mem_filter.mp hf).1
    constructor
    · rw [extractTelemetry_eq_aux]
      exact (extractAux_no_flyTime_chain sqrtFn _
        (fallbackIntervalMs_nonneg frames T) frames hnone 0).2
    · rw [extractTelemetry_eq_aux]
      exact (extractAux_no_flyTime_chain sqrtFn _
        (fallbackIntervalMs_nonneg (survivorFrames frames) T)
        (survivorFrames frames) hnone2 0).2

/-- Witness for C1: the drop contract instantiated on a concrete two-frame
sequence (one corrupt frame between good ones). -/
theorem extract_drops_corrupt_frames_witness :
    extractDropContract (fun q => q)
      [{ osd := { latitude := .nan, longitude := .finite 0, altitude := .finite 0,
                  height := .finite 0, xSpeed := .finite 0, ySpeed := .finite 0,
                  zSpeed := .finite 0 } }, exNoLockFrame] 0 :=
  extract_drops_corrupt_frames (fun q => q)
    [{ osd := { latitude := .nan, longitude := .finite 0, altitude := .finite 0,
                height := .finite 0, xSpeed := .finite 0, ySpeed := .finite 0,
                zSpeed := .finite 0 } }, exNoLockFrame] 0

/-- Good frame with in-record fly time 10 s. -/
def exFlyFrame : Frame :=
  { osd := { latitude := .finite 1, longitude := .finite 1, altitude := .finite 0,
             height := .finite 0, xSpeed := .finite 0, ySpeed := .finite 0,
             zSpeed := .finite 0, flyTime := 10 } }

/-- Corrupt frame (NaN latitude) with in-record fly time 1 s. -/
def exCorruptFlyFrame : Frame :=
  { osd := { latitude := .nan, longitude := .finite 0, altitude := .finite 0,
             height := .finite 0, xSpeed := .finite 0, ySpeed := .finite 0,
             zSpeed := .finite 0, flyTime := 1 } }

/-- Good frame with no in-record fly time. -/
def exNoFlyFrame : Frame :=
  { osd := { latitude := .finite 1, longitude := .finite 1, altitude := .finite 0,
             height := .finite 0, xSpeed := .finite 0, ySpeed := .finite 0,
             zSpeed := .finite 0 } }

/-- Counterexample for C1: frames with fly times 10 s (good), 1 s (corrupt,
NaN latitude) and none (good).  With the corrupt frame present the corrupt
frame's fly time resets the fallback accumulator, so the survivors'
timestamps are [10000, 1100] — not non-decreasing — while extracting the same
sequence without the corrupt frame yields [10000, 10100], which is
non-decreasing: the surviving points' timestamp ordering is changed by the
drop. -/
theorem extract_ordering_cex :
    ((extractTelemetry (fun q => q) [exFlyFrame, exCorruptFlyFrame, exNoFlyFrame] 0).map
        (·.timestamp_ms) = [10000, 1100]) ∧
    ((extractTelemetry (fun q => q)
        (survivorFrames [exFlyFrame, exCorruptFlyFrame, exNoFlyFrame]) 0).map
        (·.timestamp_ms) = [10000, 10100]) ∧
    ¬List.Chain' (· ≤ ·) [(10000 : ℤ), 1100] ∧
    List.Chain' (· ≤ ·) [(10000 : ℤ), 10100] := by
  have htr10 : truncZ ((10 : ℚ) * 1000) = 10000 := by
    rw [truncZ, if_pos (by norm_num), ratFloor_eq_floor,
      show ((10 : ℚ) * 1000) = ((10000 : ℤ) : ℚ) by norm_num, Int.floor_intCast]
  have htr1 : truncZ ((1 : ℚ) * 1000) = 1000 := by
    rw [truncZ, if_pos (by norm_num), ratFloor_eq_floor,
      show ((1 : ℚ) * 1000) = ((1000 : ℤ) : ℚ) by norm_num, Int.floor_intCast]
  have hA : ∀ t : ℤ, currentTimestampMs t exFlyFrame = 10000 := by
    intro t
    rw [currentTimestampMs, if_pos (by decide : (0 : ℚ) < exFlyFrame.osd.flyTime)]
    exact htr10
  have hC : ∀ t : ℤ, currentTimestampMs t exCorruptFlyFrame = 1000 := by
    intro t
    rw [currentTimestampMs, if_pos (by decide : (0 : ℚ) < exCorruptFlyFrame.osd.flyTime)]
    exact htr1
  have hB : ∀ t : ℤ, currentTimestampMs t exNoFlyFrame = t := by
    intro t
    rw [currentTimestampMs, if_neg (by decide : ¬(0 : ℚ) < exNoFlyFrame.osd.flyTime)]
  have hfi : fallbackIntervalMs [exFlyFrame, exCorruptFlyFrame, exNoFlyFrame] 0 = 100 := by
    rw [fallbackIntervalMs, if_neg (by decide)]
  have hsurv : survivorFrames [exFlyFrame, exCorruptFlyFrame, exNoFlyFrame]
      = [exFlyFrame, exNoFlyFrame] := by decide
  have hfi2 : fallbackIntervalMs [exFlyFrame, exNoFlyFrame] 0 = 100 := by
    rw [fallbackIntervalMs, if_neg (by decide)]
  refine ⟨?_, ?_, by simp [List.chain'_cons], by simp [List.chain'_cons]⟩
  · rw [extractTelemetry_eq_aux, hfi]
    rw [extractAux, if_neg (by decide), hA]
    rw [extractAux, if_pos (by decide), hC]
    rw [extractAux, if_neg (by decide), hB]
    rw [extractAux]
    norm_num [pointOfFrame_timestamp]
  · rw [hsurv, extractTelemetry_eq_aux, hfi2]
    rw [extractAux, if_neg (by decide), hA]
    rw [extractAux, if_neg (by decide), hB]
    rw [extractAux]
    norm_num [pointOfFrame_timestamp]
